import Mathlib

/-!
Verification of the particle engine in `webs.js` (class `ParticleSystem`).

The engine's numbers (JS doubles) are embedded as rationals; comparisons of the
nonnegative Euclidean distance are embedded on its square, since square roots do
not exist in the rationals and every use of a distance in the source is a
comparison against a nonnegative configured bound.  JS object identity is
embedded by giving every particle a numeric id (`pid`) and letting grid buckets
and the live list hold ids.  Mutation is embedded by explicit state passing.
-/

namespace Webs

/-- The option record `this.opts` of the constructor, restricted to the fields the
modelled operations read.  Default field values are the source defaults. -/
structure Opts where
  radius : ℚ := 1
  spawnVelocity : ℚ := 3/4
  speed : ℚ := 1
  maxConnectionDistance : ℚ := 100
  fadeStartDistance : ℚ := 60
  opacityStep : ℚ := 1/5
  connectionHysteresis : ℚ := 1/10
  enableConnections : Bool := true
  enableSpatialPartitioning : Bool := true
  gridSize : ℚ := 20
  enableObjectPooling : Bool := true
  enableAdaptiveLOD : Bool := true
  maxConnectionsPerParticle : ℕ := 10
  performanceThreshold : ℚ := 40
  lodConnectionReduction : ℚ := 1/2
  enableAdvancedPhysics : Bool := false
  damping : ℚ := 99/100
  gravityX : ℚ := 0
  gravityY : ℚ := 50
deriving Repr, DecidableEq

/-- The source defaults (`this.opts` before the options spread). -/
def defaultOpts : Opts := {}

/-- A particle record: `{x, y, gridKey, pastX, pastY, vx, vy, fx, fy}`.
The grid key is `none` for JS `null`. -/
structure Particle where
  x : ℚ
  y : ℚ
  pastX : ℚ
  pastY : ℚ
  vx : ℚ
  vy : ℚ
  fx : ℚ
  fy : ℚ
  gridKey : Option ℤ
deriving Repr, DecidableEq

/-- The spatial grid `this.grid`, as a total function from cell key to the bucket
of particle ids in insertion order.  An absent `Map` entry is the empty bucket;
`grid.has(k)` is `grid k ≠ []`, which is faithful because the source never
stores an empty bucket (`removeFromGrid` deletes a bucket that becomes empty and
`addToGrid` creates a bucket only to push into it). -/
abbrev Grid := ℤ → List ℕ

/-- Source `getGridKey(x, y)`: `null` when partitioning is disabled, else
`floor(x / gridSize) * 10000 + floor(y / gridSize)`.  A zero grid size makes the
JS division non-finite, so no finite integer key exists; that case is embedded
as `none` as well (every theorem that exercises the grid assumes a nonzero grid
size, matching the source comment that assumes sane grid dimensions). -/
def getGridKey (o : Opts) (x y : ℚ) : Option ℤ :=
  if ¬ o.enableSpatialPartitioning then none
  else if o.gridSize = 0 then none
  else some (⌊x / o.gridSize⌋ * 10000 + ⌊y / o.gridSize⌋)

/-- Source `addToGrid(particle)`: push the particle into the bucket of its
current key and store the key on the particle.  Returns (new grid, new particle). -/
def addToGrid (o : Opts) (grid : Grid) (pid : ℕ) (p : Particle) : Grid × Particle :=
  if ¬ o.enableSpatialPartitioning then (grid, p)
  else
    match getGridKey o p.x p.y with
    | none => (grid, { p with gridKey := none })
    | some key =>
        (fun k => if k = key then grid k ++ [pid] else grid k,
         { p with gridKey := some key })

/-- Source `removeFromGrid(particle)`: splice the particle out of the bucket of
its stored key.  The source guard is the falsy test `!particle.gridKey`, which
is true both for the JS `null` key and for the numeric key `0`; both cases
return without touching the grid. -/
def removeFromGrid (o : Opts) (grid : Grid) (pid : ℕ) (p : Particle) : Grid :=
  match p.gridKey with
  | none => grid
  | some key =>
      if ¬ o.enableSpatialPartitioning ∨ key = 0 then grid
      else fun k => if k = key then (grid k).erase pid else grid k

/-- The grid maintenance epilogue shared by `updateParticle` and
`applyMinimalParticleUpdate`: if the particle's new cell key differs from its
stored key, remove-then-reinsert.  `p.gridKey` is still the old key here, since
the integration stages touch only position/velocity/force fields. -/
def gridMaintain (o : Opts) (grid : Grid) (pid : ℕ) (p : Particle) : Particle × Grid :=
  if o.enableSpatialPartitioning then
    let newGridKey := getGridKey o p.x p.y
    if newGridKey ≠ p.gridKey then
      let grid1 := removeFromGrid o grid pid p
      let gp := addToGrid o grid1 pid p
      (gp.2, gp.1)
    else (p, grid)
  else (p, grid)

/-- The Verlet integration stage of `updateParticle` (source lines up to the edge
bounce): derive the velocity, compute the new position in basic or advanced
mode, then shift `past := current; current := new`.  `deltaTime` is in
milliseconds, `dt = deltaTime / 1000`. -/
def integrate (o : Opts) (deltaTime : ℚ) (p : Particle) : Particle :=
  let currentX := p.x
  let currentY := p.y
  let vx := currentX - p.pastX
  let vy := currentY - p.pastY
  let dt := deltaTime / 1000
  if o.enableAdvancedPhysics then
    let vx := vx * o.damping
    let vy := vy * o.damping
    let forceScale := 1 / (dt * dt)
    let ax := o.gravityX + p.fx * forceScale
    let ay := o.gravityY + p.fy * forceScale
    let newX := 2 * currentX - p.pastX + ax * dt * dt
    let newY := 2 * currentY - p.pastY + ay * dt * dt
    { p with vx := vx, vy := vy, pastX := currentX, pastY := currentY, x := newX, y := newY }
  else
    let newX := currentX + vx + p.fx
    let newY := currentY + vy + p.fy
    { p with vx := vx, vy := vy, pastX := currentX, pastY := currentY, x := newX, y := newY }

/-- The x-axis part of the edge bounce of `updateParticle`: on contact
(`>= width` or `<= 0`) clamp the coordinate to the boundary and mirror the past
position about it (`pastX = x + vx` with `vx` the implied velocity at clamp
time). -/
def applyBoundsX (width : ℚ) (p : Particle) : Particle :=
  if p.x ≥ width then
    let vx := p.x - p.pastX
    { p with x := width, pastX := width + vx }
  else if p.x ≤ 0 then
    let vx := p.x - p.pastX
    { p with x := 0, pastX := 0 + vx }
  else p

/-- The y-axis part of the edge bounce of `updateParticle`. -/
def applyBoundsY (height : ℚ) (p : Particle) : Particle :=
  if p.y ≥ height then
    let vy := p.y - p.pastY
    { p with y := height, pastY := height + vy }
  else if p.y ≤ 0 then
    let vy := p.y - p.pastY
    { p with y := 0, pastY := 0 + vy }
  else p

/-- The edge bounce stage of `updateParticle`: the two sequential per-axis
if-chains of the source. -/
def applyBounds (width height : ℚ) (p : Particle) : Particle :=
  applyBoundsY height (applyBoundsX width p)

/-- Source `updateParticle(particle, deltaTime)`: integrate, bounce at the
edges, then re-register in the grid when the cell key changed. -/
def updateParticle (o : Opts) (width height deltaTime : ℚ) (grid : Grid) (pid : ℕ)
    (p : Particle) : Particle × Grid :=
  gridMaintain o grid pid (applyBounds width height (integrate o deltaTime p))

/-- The integration stage of `applyMinimalParticleUpdate`: fold forces into the
tracked velocity, advance by it, and derive the past position algebraically. -/
def minimalIntegrate (p : Particle) : Particle :=
  let vx := p.vx + p.fx
  let vy := p.vy + p.fy
  let x := p.x + vx
  let y := p.y + vy
  { p with vx := vx, vy := vy, x := x, y := y, pastX := x - vx, pastY := y - vy }

/-- The x-axis part of the simplified boundary stage of
`applyMinimalParticleUpdate`: clamp and force the sign of the tracked velocity
component toward the interior (`vx = -abs(vx)` at the max edge, `vx = abs(vx)`
at the min edge). -/
def minimalBoundsX (width : ℚ) (p : Particle) : Particle :=
  if p.x ≥ width then { p with x := width, vx := -|p.vx| }
  else if p.x ≤ 0 then { p with x := 0, vx := |p.vx| }
  else p

/-- The y-axis part of the simplified boundary stage of
`applyMinimalParticleUpdate`. -/
def minimalBoundsY (height : ℚ) (p : Particle) : Particle :=
  if p.y ≥ height then { p with y := height, vy := -|p.vy| }
  else if p.y ≤ 0 then { p with y := 0, vy := |p.vy| }
  else p

/-- The simplified boundary stage of `applyMinimalParticleUpdate`: the two
sequential per-axis if-chains of the source. -/
def minimalBounds (width height : ℚ) (p : Particle) : Particle :=
  minimalBoundsY height (minimalBoundsX width p)

/-- Source `applyMinimalParticleUpdate(particle)`: minimal integration, minimal
bounds, force reset, then the same grid maintenance epilogue. -/
def applyMinimalParticleUpdate (o : Opts) (width height : ℚ) (grid : Grid) (pid : ℕ)
    (p : Particle) : Particle × Grid :=
  let p3 := minimalBounds width height (minimalIntegrate p)
  gridMaintain o grid pid { p3 with fx := 0, fy := 0 }

theorem addToGrid_fields (o : Opts) (grid : Grid) (pid : ℕ) (p : Particle) :
    (addToGrid o grid pid p).2.x = p.x ∧ (addToGrid o grid pid p).2.y = p.y ∧
    (addToGrid o grid pid p).2.pastX = p.pastX ∧ (addToGrid o grid pid p).2.pastY = p.pastY ∧
    (addToGrid o grid pid p).2.vx = p.vx ∧ (addToGrid o grid pid p).2.vy = p.vy ∧
    (addToGrid o grid pid p).2.fx = p.fx ∧ (addToGrid o grid pid p).2.fy = p.fy := by
  unfold addToGrid
  split
  · simp
  · split <;> simp

theorem gridMaintain_fields (o : Opts) (grid : Grid) (pid : ℕ) (p : Particle) :
    (gridMaintain o grid pid p).1.x = p.x ∧ (gridMaintain o grid pid p).1.y = p.y ∧
    (gridMaintain o grid pid p).1.pastX = p.pastX ∧ (gridMaintain o grid pid p).1.pastY = p.pastY ∧
    (gridMaintain o grid pid p).1.vx = p.vx ∧ (gridMaintain o grid pid p).1.vy = p.vy ∧
    (gridMaintain o grid pid p).1.fx = p.fx ∧ (gridMaintain o grid pid p).1.fy = p.fy := by
  unfold gridMaintain
  split
  · dsimp only
    split
    · simpa using addToGrid_fields o (removeFromGrid o grid pid p) pid p
    · simp
  · simp

theorem updateParticle_fields (o : Opts) (w h dt : ℚ) (grid : Grid) (pid : ℕ) (p : Particle) :
    (updateParticle o w h dt grid pid p).1.x = (applyBounds w h (integrate o dt p)).x ∧
    (updateParticle o w h dt grid pid p).1.y = (applyBounds w h (integrate o dt p)).y ∧
    (updateParticle o w h dt grid pid p).1.pastX = (applyBounds w h (integrate o dt p)).pastX ∧
    (updateParticle o w h dt grid pid p).1.pastY = (applyBounds w h (integrate o dt p)).pastY := by
  unfold updateParticle
  have hf := gridMaintain_fields o grid pid (applyBounds w h (integrate o dt p))
  exact ⟨hf.1, hf.2.1, hf.2.2.1, hf.2.2.2.1⟩

theorem applyMinimal_fields (o : Opts) (w h : ℚ) (grid : Grid) (pid : ℕ) (p : Particle) :
    (applyMinimalParticleUpdate o w h grid pid p).1.x = (minimalBounds w h (minimalIntegrate p)).x ∧
    (applyMinimalParticleUpdate o w h grid pid p).1.y = (minimalBounds w h (minimalIntegrate p)).y ∧
    (applyMinimalParticleUpdate o w h grid pid p).1.vx = (minimalBounds w h (minimalIntegrate p)).vx ∧
    (applyMinimalParticleUpdate o w h grid pid p).1.vy = (minimalBounds w h (minimalIntegrate p)).vy := by
  unfold applyMinimalParticleUpdate
  have hf := gridMaintain_fields o grid pid
    { minimalBounds w h (minimalIntegrate p) with fx := 0, fy := 0 }
  exact ⟨hf.1, hf.2.1, hf.2.2.2.2.1, hf.2.2.2.2.2.1⟩

theorem integrate_past (o : Opts) (dt : ℚ) (p : Particle) :
    (integrate o dt p).pastX = p.x ∧ (integrate o dt p).pastY = p.y := by
  simp only [integrate]
  split_ifs <;> exact ⟨rfl, rfl⟩

theorem applyBoundsX_fields (w : ℚ) (p : Particle) :
    (applyBoundsX w p).y = p.y ∧ (applyBoundsX w p).pastY = p.pastY ∧
    (applyBoundsX w p).vx = p.vx ∧ (applyBoundsX w p).vy = p.vy ∧
    (applyBoundsX w p).fx = p.fx ∧ (applyBoundsX w p).fy = p.fy := by
  unfold applyBoundsX
  split_ifs <;> simp

theorem applyBoundsY_fields (h : ℚ) (p : Particle) :
    (applyBoundsY h p).x = p.x ∧ (applyBoundsY h p).pastX = p.pastX ∧
    (applyBoundsY h p).vx = p.vx ∧ (applyBoundsY h p).vy = p.vy ∧
    (applyBoundsY h p).fx = p.fx ∧ (applyBoundsY h p).fy = p.fy := by
  unfold applyBoundsY
  split_ifs <;> simp

theorem applyBoundsX_mem (w : ℚ) (hw : 0 ≤ w) (p : Particle) :
    0 ≤ (applyBoundsX w p).x ∧ (applyBoundsX w p).x ≤ w := by
  unfold applyBoundsX
  split_ifs <;> constructor <;> simp_all <;> linarith

theorem applyBoundsY_mem (h : ℚ) (hh : 0 ≤ h) (p : Particle) :
    0 ≤ (applyBoundsY h p).y ∧ (applyBoundsY h p).y ≤ h := by
  unfold applyBoundsY
  split_ifs <;> constructor <;> simp_all <;> linarith

theorem applyBounds_mem (w h : ℚ) (hw : 0 ≤ w) (hh : 0 ≤ h) (p : Particle) :
    0 ≤ (applyBounds w h p).x ∧ (applyBounds w h p).x ≤ w ∧
    0 ≤ (applyBounds w h p).y ∧ (applyBounds w h p).y ≤ h := by
  unfold applyBounds
  have hx := applyBoundsX_mem w hw p
  have hxy := applyBoundsY_fields h (applyBoundsX w p)
  have hy := applyBoundsY_mem h hh (applyBoundsX w p)
  exact ⟨hxy.1 ▸ hx.1, hxy.1 ▸ hx.2, hy.1, hy.2⟩

theorem minimalBoundsX_fields (w : ℚ) (p : Particle) :
    (minimalBoundsX w p).y = p.y ∧ (minimalBoundsX w p).pastY = p.pastY ∧
    (minimalBoundsX w p).vy = p.vy ∧ (minimalBoundsX w p).pastX = p.pastX ∧
    (minimalBoundsX w p).fx = p.fx ∧ (minimalBoundsX w p).fy = p.fy := by
  unfold minimalBoundsX
  split_ifs <;> simp

theorem minimalBoundsY_fields (h : ℚ) (p : Particle) :
    (minimalBoundsY h p).x = p.x ∧ (minimalBoundsY h p).pastX = p.pastX ∧
    (minimalBoundsY h p).vx = p.vx ∧ (minimalBoundsY h p).pastY = p.pastY ∧
    (minimalBoundsY h p).fx = p.fx ∧ (minimalBoundsY h p).fy = p.fy := by
  unfold minimalBoundsY
  split_ifs <;> simp

theorem minimalBoundsX_mem (w : ℚ) (hw : 0 ≤ w) (p : Particle) :
    0 ≤ (minimalBoundsX w p).x ∧ (minimalBoundsX w p).x ≤ w := by
  unfold minimalBoundsX
  split_ifs <;> constructor <;> simp_all <;> linarith

theorem minimalBoundsY_mem (h : ℚ) (hh : 0 ≤ h) (p : Particle) :
    0 ≤ (minimalBoundsY h p).y ∧ (minimalBoundsY h p).y ≤ h := by
  unfold minimalBoundsY
  split_ifs <;> constructor <;> simp_all <;> linarith

theorem minimalBounds_mem (w h : ℚ) (hw : 0 ≤ w) (hh : 0 ≤ h) (p : Particle) :
    0 ≤ (minimalBounds w h p).x ∧ (minimalBounds w h p).x ≤ w ∧
    0 ≤ (minimalBounds w h p).y ∧ (minimalBounds w h p).y ≤ h := by
  unfold minimalBounds
  have hx := minimalBoundsX_mem w hw p
  have hxy := minimalBoundsY_fields h (minimalBoundsX w p)
  have hy := minimalBoundsY_mem h hh (minimalBoundsX w p)
  exact ⟨hxy.1 ▸ hx.1, hxy.1 ▸ hx.2, hy.1, hy.2⟩

theorem applyBoundsX_congr (w : ℚ) (p q : Particle) (hx : p.x = q.x) (hpx : p.pastX = q.pastX) :
    (applyBoundsX w p).x = (applyBoundsX w q).x ∧
    (applyBoundsX w p).pastX = (applyBoundsX w q).pastX := by
  unfold applyBoundsX
  split_ifs <;> simp_all

theorem applyBoundsY_congr (h : ℚ) (p q : Particle) (hy : p.y = q.y) (hpy : p.pastY = q.pastY) :
    (applyBoundsY h p).y = (applyBoundsY h q).y ∧
    (applyBoundsY h p).pastY = (applyBoundsY h q).pastY := by
  unfold applyBoundsY
  split_ifs <;> simp_all

theorem applyBounds_congr (w h : ℚ) (p q : Particle) (hx : p.x = q.x) (hy : p.y = q.y)
    (hpx : p.pastX = q.pastX) (hpy : p.pastY = q.pastY) :
    (applyBounds w h p).x = (applyBounds w h q).x ∧
    (applyBounds w h p).y = (applyBounds w h q).y ∧
    (applyBounds w h p).pastX = (applyBounds w h q).pastX ∧
    (applyBounds w h p).pastY = (applyBounds w h q).pastY := by
  unfold applyBounds
  have hX := applyBoundsX_congr w p q hx hpx
  have hfp := applyBoundsX_fields w p
  have hfq := applyBoundsX_fields w q
  have hY := applyBoundsY_congr h (applyBoundsX w p) (applyBoundsX w q)
    (by rw [hfp.1, hfq.1, hy]) (by rw [hfp.2.1, hfq.2.1, hpy])
  have hYp := applyBoundsY_fields h (applyBoundsX w p)
  have hYq := applyBoundsY_fields h (applyBoundsX w q)
  exact ⟨by rw [hYp.1, hYq.1, hX.1], hY.1, by rw [hYp.2.1, hYq.2.1, hX.2], hY.2⟩

/-- A particle with a very large implied incoming velocity, used as concrete input. -/
def pC3 : Particle :=
  { x := 50, y := 50, pastX := -1000, pastY := 2000, vx := 0, vy := 0, fx := 0, fy := 0,
    gridKey := none }

/-- Claim C3: for every particle and every incoming velocity (arbitrarily large),
after any single integrator step — full update or minimal LOD update — both
position components of the particle lie within [0, extent] inclusive, where
extent is the current surface width/height. -/
theorem C3_positions_clamped (o : Opts) (w h deltaTime : ℚ) (grid1 grid2 : Grid)
    (pid1 pid2 : ℕ) (p q : Particle) (hw : 0 ≤ w) (hh : 0 ≤ h) (hdt : 0 < deltaTime) :
    (0 ≤ (updateParticle o w h deltaTime grid1 pid1 p).1.x ∧
     (updateParticle o w h deltaTime grid1 pid1 p).1.x ≤ w ∧
     0 ≤ (updateParticle o w h deltaTime grid1 pid1 p).1.y ∧
     (updateParticle o w h deltaTime grid1 pid1 p).1.y ≤ h) ∧
    (0 ≤ (applyMinimalParticleUpdate o w h grid2 pid2 q).1.x ∧
     (applyMinimalParticleUpdate o w h grid2 pid2 q).1.x ≤ w ∧
     0 ≤ (applyMinimalParticleUpdate o w h grid2 pid2 q).1.y ∧
     (applyMinimalParticleUpdate o w h grid2 pid2 q).1.y ≤ h) := by
  have hu := updateParticle_fields o w h deltaTime grid1 pid1 p
  have hb := applyBounds_mem w h hw hh (integrate o deltaTime p)
  have hm := applyMinimal_fields o w h grid2 pid2 q
  have hmb := minimalBounds_mem w h hw hh (minimalIntegrate q)
  refine ⟨⟨?_, ?_, ?_, ?_⟩, ?_, ?_, ?_, ?_⟩
  · rw [hu.1]; exact hb.1
  · rw [hu.1]; exact hb.2.1
  · rw [hu.2.1]; exact hb.2.2.1
  · rw [hu.2.1]; exact hb.2.2.2
  · rw [hm.1]; exact hmb.1
  · rw [hm.1]; exact hmb.2.1
  · rw [hm.2.1]; exact hmb.2.2.1
  · rw [hm.2.1]; exact hmb.2.2.2

theorem C3_positions_clamped_witness :
    0 ≤ (updateParticle defaultOpts 100 100 (50/3) (fun k => []) 0 pC3).1.x ∧
    (updateParticle defaultOpts 100 100 (50/3) (fun k => []) 0 pC3).1.x ≤ 100 := by
  have h := C3_positions_clamped defaultOpts 100 100 (50/3) (fun k => []) (fun k => [])
    0 0 pC3 pC3 (by norm_num) (by norm_num) (by norm_num)
  exact ⟨h.1.1, h.1.2.1⟩

/-- An option set with spatial partitioning disabled (all other fields default),
so that a step touches no grid state. -/
def oC4 : Opts := { enableSpatialPartitioning := false }

/-- A particle whose basic-mode step lands exactly on the right boundary x = 100
with inward implied velocity -5 (current 105, past 110, no force). -/
def pC4 : Particle :=
  { x := 105, y := 50, pastX := 110, pastY := 50, vx := 0, vy := 0, fx := 0, fy := 0,
    gridKey := none }

/-- Claim C4 counterexample: in the full update the post-integration coordinate
lands exactly on the boundary (new x = width = 100) with inward implied velocity
-5, yet the step reflects the particle: the resulting implied velocity is +5,
the sign is not kept.  The source branch `particle.x >= this.width` fires on
equality regardless of the velocity direction and always mirrors the past
position. -/
theorem C4_exact_boundary_cex :
    (integrate oC4 (50/3) pC4).x = 100 ∧
    (integrate oC4 (50/3) pC4).x - (integrate oC4 (50/3) pC4).pastX = -5 ∧
    (updateParticle oC4 100 100 (50/3) (fun k => []) 0 pC4).1.x = 100 ∧
    (updateParticle oC4 100 100 (50/3) (fun k => []) 0 pC4).1.x
        - (updateParticle oC4 100 100 (50/3) (fun k => []) 0 pC4).1.pastX = 5 := by
  norm_num [updateParticle, integrate, applyBounds, applyBoundsX, applyBoundsY, gridMaintain,
    oC4, pC4]

/-- Claim C4 (amended): in the full update the edge branch triggers whenever the
post-integration coordinate is at or beyond the boundary, regardless of the sign
of the implied velocity, and always negates that implied velocity by mirroring
the past position about the boundary — so a particle exactly on the boundary
with inward velocity is reflected.  In the minimal update the claim holds as
stated: at the boundary the tracked velocity component is forced toward the
interior with an absolute value, so an inward velocity keeps its sign and no
reflection happens. -/
theorem C4_boundary_reflection_amended (o : Opts) (w h deltaTime : ℚ) (grid : Grid) (pid : ℕ)
    (p : Particle) :
    ((integrate o deltaTime p).x ≥ w →
      (updateParticle o w h deltaTime grid pid p).1.x = w ∧
      (updateParticle o w h deltaTime grid pid p).1.x
          - (updateParticle o w h deltaTime grid pid p).1.pastX
        = -((integrate o deltaTime p).x - p.x)) ∧
    (¬ (integrate o deltaTime p).x ≥ w → (integrate o deltaTime p).x ≤ 0 →
      (updateParticle o w h deltaTime grid pid p).1.x = 0 ∧
      (updateParticle o w h deltaTime grid pid p).1.x
          - (updateParticle o w h deltaTime grid pid p).1.pastX
        = -((integrate o deltaTime p).x - p.x)) ∧
    ((minimalIntegrate p).x ≥ w → (minimalIntegrate p).vx ≤ 0 →
      (applyMinimalParticleUpdate o w h grid pid p).1.vx = (minimalIntegrate p).vx) ∧
    (¬ (minimalIntegrate p).x ≥ w → (minimalIntegrate p).x ≤ 0 → 0 ≤ (minimalIntegrate p).vx →
      (applyMinimalParticleUpdate o w h grid pid p).1.vx = (minimalIntegrate p).vx) := by
  have hu := updateParticle_fields o w h deltaTime grid pid p
  have hq : (integrate o deltaTime p).pastX = p.x := (integrate_past o deltaTime p).1
  have hyf := applyBoundsY_fields h (applyBoundsX w (integrate o deltaTime p))
  have hm := applyMinimal_fields o w h grid pid p
  have hmy := minimalBoundsY_fields h (minimalBoundsX w (minimalIntegrate p))
  refine ⟨fun h1 => ?_, fun h1 h2 => ?_, fun h1 h2 => ?_, fun h1 h2 h3 => ?_⟩
  · have hX : applyBoundsX w (integrate o deltaTime p) =
        { integrate o deltaTime p with
          x := w,
          pastX := w + ((integrate o deltaTime p).x - (integrate o deltaTime p).pastX) } := by
      unfold applyBoundsX; rw [if_pos h1]
    constructor
    · rw [hu.1]; unfold applyBounds; rw [hyf.1, hX]
    · rw [hu.1, hu.2.2.1]; unfold applyBounds; rw [hyf.1, hyf.2.1, hX]
      simp only []
      rw [hq]; ring
  · have hX : applyBoundsX w (integrate o deltaTime p) =
        { integrate o deltaTime p with
          x := 0,
          pastX := 0 + ((integrate o deltaTime p).x - (integrate o deltaTime p).pastX) } := by
      unfold applyBoundsX; rw [if_neg h1, if_pos h2]
    constructor
    · rw [hu.1]; unfold applyBounds; rw [hyf.1, hX]
    · rw [hu.1, hu.2.2.1]; unfold applyBounds; rw [hyf.1, hyf.2.1, hX]
      simp only []
      rw [hq]; ring
  · have hX : minimalBoundsX w (minimalIntegrate p) =
        { minimalIntegrate p with
          x := w,
          vx := -|(minimalIntegrate p).vx| } := by
      unfold minimalBoundsX; rw [if_pos h1]
    rw [hm.2.2.1]; unfold minimalBounds; rw [hmy.2.2.1, hX]
    simp only []
    rw [abs_of_nonpos h2]; ring
  · have hX : minimalBoundsX w (minimalIntegrate p) =
        { minimalIntegrate p with
          x := 0,
          vx := |(minimalIntegrate p).vx| } := by
      unfold minimalBoundsX; rw [if_neg h1, if_pos h2]
    rw [hm.2.2.1]; unfold minimalBounds; rw [hmy.2.2.1, hX]
    simp only []
    exact abs_of_nonneg h3

/-- A particle whose minimal-mode step lands exactly on the right boundary with
inward tracked velocity -5. -/
def pC4m : Particle :=
  { x := 105, y := 50, pastX := 0, pastY := 0, vx := -5, vy := 0, fx := 0, fy := 0,
    gridKey := none }

theorem C4_boundary_reflection_witness :
    ((updateParticle oC4 100 100 (50/3) (fun k => []) 0 pC4).1.x = 100 ∧
     (updateParticle oC4 100 100 (50/3) (fun k => []) 0 pC4).1.x
        - (updateParticle oC4 100 100 (50/3) (fun k => []) 0 pC4).1.pastX
      = -((integrate oC4 (50/3) pC4).x - pC4.x)) ∧
    (applyMinimalParticleUpdate oC4 100 100 (fun k => []) 0 pC4m).1.vx
      = (minimalIntegrate pC4m).vx :=
  ⟨(C4_boundary_reflection_amended oC4 100 100 (50/3) (fun k => []) 0 pC4).1
      (by norm_num [integrate, oC4, pC4]),
   (C4_boundary_reflection_amended oC4 100 100 (50/3) (fun k => []) 0 pC4m).2.2.1
      (by norm_num [minimalIntegrate, pC4m]) (by norm_num [minimalIntegrate, pC4m])⟩

/-- An option set with advanced physics enabled (all other fields default). -/
def oC10 : Opts := { enableAdvancedPhysics := true }

/-- Claim C10: with advanced physics enabled, the position produced by a full
update step is independent of the damping option: two runs of `updateParticle`
on identical states that differ only in the damping value produce identical
(x, y, pastX, pastY) — the Verlet formula 2*current - past + a*dt^2 never reads
the damped velocity fields. -/
theorem C10_damping_independence (o : Opts) (w h deltaTime : ℚ) (grid : Grid) (pid : ℕ)
    (p : Particle) (d1 d2 : ℚ) (hadv : o.enableAdvancedPhysics = true) (hdt : 0 < deltaTime) :
    (updateParticle { o with damping := d1 } w h deltaTime grid pid p).1.x
      = (updateParticle { o with damping := d2 } w h deltaTime grid pid p).1.x ∧
    (updateParticle { o with damping := d1 } w h deltaTime grid pid p).1.y
      = (updateParticle { o with damping := d2 } w h deltaTime grid pid p).1.y ∧
    (updateParticle { o with damping := d1 } w h deltaTime grid pid p).1.pastX
      = (updateParticle { o with damping := d2 } w h deltaTime grid pid p).1.pastX ∧
    (updateParticle { o with damping := d1 } w h deltaTime grid pid p).1.pastY
      = (updateParticle { o with damping := d2 } w h deltaTime grid pid p).1.pastY := by
  have h1 := updateParticle_fields { o with damping := d1 } w h deltaTime grid pid p
  have h2 := updateParticle_fields { o with damping := d2 } w h deltaTime grid pid p
  have hi : (integrate { o with damping := d1 } deltaTime p).x
        = (integrate { o with damping := d2 } deltaTime p).x ∧
      (integrate { o with damping := d1 } deltaTime p).y
        = (integrate { o with damping := d2 } deltaTime p).y ∧
      (integrate { o with damping := d1 } deltaTime p).pastX
        = (integrate { o with damping := d2 } deltaTime p).pastX ∧
      (integrate { o with damping := d1 } deltaTime p).pastY
        = (integrate { o with damping := d2 } deltaTime p).pastY := by
    refine ⟨?_, ?_, ?_, ?_⟩ <;> simp [integrate, hadv]
  have hb := applyBounds_congr w h (integrate { o with damping := d1 } deltaTime p)
    (integrate { o with damping := d2 } deltaTime p) hi.1 hi.2.1 hi.2.2.1 hi.2.2.2
  refine ⟨?_, ?_, ?_, ?_⟩
  · rw [h1.1, h2.1]; exact hb.1
  · rw [h1.2.1, h2.2.1]; exact hb.2.1
  · rw [h1.2.2.1, h2.2.2.1]; exact hb.2.2.1
  · rw [h1.2.2.2, h2.2.2.2]; exact hb.2.2.2

theorem C10_damping_independence_witness :
    (updateParticle { oC10 with damping := 1/2 } 100 100 (50/3) (fun k => []) 0 pC3).1.x
      = (updateParticle { oC10 with damping := 1 } 100 100 (50/3) (fun k => []) 0 pC3).1.x :=
  (C10_damping_independence oC10 100 100 (50/3) (fun k => []) 0 pC3 (1/2) 1 rfl
    (by norm_num)).1

/-- A particle sitting in cell (0,0) — numeric grid key 0 — about to move right
into cell (1,0): current (5,5), past (-20,5), so the implied velocity is 25. -/
def pC2 : Particle :=
  { x := 5, y := 5, pastX := -20, pastY := 5, vx := 0, vy := 0, fx := 0, fy := 0,
    gridKey := some 0 }

/-- The grid holding only particle id 7 in bucket 0, the state `addToGrid` would
have produced for `pC2`. -/
def gridC2 : Grid := fun k => if k = 0 then [7] else []

/-- Claim C2 (code bug evidence): stepping the particle out of cell (0,0) moves
its stored key to 10000 and inserts it into bucket 10000, but the falsy guard
`!particle.gridKey` in `removeFromGrid` treats the numeric key 0 as absent and
never removes it from bucket 0 — the particle ends up registered in two buckets
at once, violating the exactly-one-bucket invariant. -/
theorem C2_double_registration :
    (updateParticle defaultOpts 100 100 (50/3) gridC2 7 pC2).1.gridKey = some 10000 ∧
    (updateParticle defaultOpts 100 100 (50/3) gridC2 7 pC2).2 0 = [7] ∧
    (updateParticle defaultOpts 100 100 (50/3) gridC2 7 pC2).2 10000 = [7] := by
  norm_num [updateParticle, integrate, applyBounds, applyBoundsX, applyBoundsY, gridMaintain,
    removeFromGrid, addToGrid, getGridKey, defaultOpts, pC2, gridC2]

/-- Source `returnParticleToPool(particle)`: only when pooling is enabled does it
remove the particle from the grid and push it onto the free-list. -/
def returnParticleToPool (o : Opts) (grid : Grid) (pool : List ℕ) (pid : ℕ) (p : Particle) :
    Grid × List ℕ :=
  if o.enableObjectPooling then (removeFromGrid o grid pid p, pool ++ [pid])
  else (grid, pool)

/-- Source `removeParticle()`: pop the most recently added particle from the live
list and hand it to `returnParticleToPool`; on an empty store return null and
change nothing.  Result: (returned particle, live list, grid, pool). -/
def removeParticle (o : Opts) (particles : List (ℕ × Particle)) (grid : Grid) (pool : List ℕ) :
    Option (ℕ × Particle) × List (ℕ × Particle) × Grid × List ℕ :=
  match particles.getLast? with
  | some last =>
      let gp := returnParticleToPool o grid pool last.1 last.2
      (some last, particles.dropLast, gp.1, gp.2)
  | none => (none, particles, grid, pool)

/-- An option set with object pooling disabled (all other fields default). -/
def oC6 : Opts := { enableObjectPooling := false }

/-- A particle in cell (1,1) (grid key 10001) registered in its bucket. -/
def pC6 : Particle :=
  { x := 30, y := 30, pastX := 30, pastY := 30, vx := 0, vy := 0, fx := 0, fy := 0,
    gridKey := some 10001 }

/-- The grid holding only particle id 0 in bucket 10001. -/
def gridC6 : Grid := fun k => if k = 10001 then [0] else []

/-- Claim C6 (code bug evidence): with pooling disabled, `removeParticle` pops
the particle from the live list but never touches the Spatial Index —
`returnParticleToPool` only calls `removeFromGrid` inside the pooling branch —
so the removed particle stays registered in bucket 10001 forever (and is not
pooled either). -/
theorem C6_stale_grid_entry :
    (removeParticle oC6 [(0, pC6)] gridC6 []).2.1 = [] ∧
    (removeParticle oC6 [(0, pC6)] gridC6 []).2.2.1 10001 = [0] ∧
    (removeParticle oC6 [(0, pC6)] gridC6 []).2.2.2 = [] := by
  refine ⟨rfl, rfl, rfl⟩

/-- The reuse path of `getPooledParticle(x, y)` (pool non-empty, pooling on):
every field of the popped particle is overwritten — position to (x, y), past
position jittered by `(Math.random() - 0.5) * 2 * spawnVelocity` embedded with
the two random draws `r1 r2` as parameters, velocities and forces zeroed, key
cleared. -/
def resetReused (o : Opts) (x y r1 r2 : ℚ) (p : Particle) : Particle :=
  { p with
    x := x, y := y,
    pastX := x + (r1 - 1/2) * 2 * o.spawnVelocity,
    pastY := y + (r2 - 1/2) * 2 * o.spawnVelocity,
    vx := 0, vy := 0, fx := 0, fy := 0, gridKey := none }

/-- The tail of `getPooledParticle`: reset the reused particle and register it in
the grid (`addToGrid` is called on both the fresh and the reuse path). -/
def getPooledParticleReuse (o : Opts) (grid : Grid) (pid : ℕ) (p : Particle) (x y r1 r2 : ℚ) :
    Particle × Grid :=
  let gp := addToGrid o grid pid (resetReused o x y r1 r2 p)
  (gp.2, gp.1)

/-- Claim C7: a reused pooled particle comes back with force accumulators exactly
zero, position exactly (x, y), past position within the spawn-velocity bound of
the new position on each axis, and no field retaining a value from the previous
tenant (the result is independent of the popped particle's old fields). -/
theorem C7_pool_reuse_clean (o : Opts) (grid : Grid) (pid : ℕ) (p : Particle) (x y r1 r2 : ℚ)
    (h1 : 0 ≤ r1) (h2 : r1 ≤ 1) (h3 : 0 ≤ r2) (h4 : r2 ≤ 1) (hv : 0 ≤ o.spawnVelocity) :
    (getPooledParticleReuse o grid pid p x y r1 r2).1.fx = 0 ∧
    (getPooledParticleReuse o grid pid p x y r1 r2).1.fy = 0 ∧
    (getPooledParticleReuse o grid pid p x y r1 r2).1.x = x ∧
    (getPooledParticleReuse o grid pid p x y r1 r2).1.y = y ∧
    |(getPooledParticleReuse o grid pid p x y r1 r2).1.pastX - x| ≤ o.spawnVelocity ∧
    |(getPooledParticleReuse o grid pid p x y r1 r2).1.pastY - y| ≤ o.spawnVelocity ∧
    (∀ q : Particle, getPooledParticleReuse o grid pid p x y r1 r2
        = getPooledParticleReuse o grid pid q x y r1 r2) := by
  have hf := addToGrid_fields o grid pid (resetReused o x y r1 r2 p)
  have hrepr : (getPooledParticleReuse o grid pid p x y r1 r2).1
      = (addToGrid o grid pid (resetReused o x y r1 r2 p)).2 := rfl
  have hjit : ∀ r : ℚ, 0 ≤ r → r ≤ 1 → |(r - 1/2) * 2 * o.spawnVelocity| ≤ o.spawnVelocity := by
    intro r hr0 hr1
    have habs : |(r - 1/2) * 2 * o.spawnVelocity| = |r - 1/2| * (2 * o.spawnVelocity) := by
      rw [abs_mul, abs_mul, abs_two, abs_of_nonneg hv]; ring
    have hb : |r - 1/2| ≤ 1/2 := abs_le.mpr ⟨by linarith, by linarith⟩
    rw [habs]
    nlinarith [abs_nonneg (r - 1/2)]
  refine ⟨?_, ?_, ?_, ?_, ?_, ?_, fun q => rfl⟩
  · rw [hrepr, hf.2.2.2.2.2.2.1]; rfl
  · rw [hrepr, hf.2.2.2.2.2.2.2]; rfl
  · rw [hrepr, hf.1]; rfl
  · rw [hrepr, hf.2.1]; rfl
  · rw [hrepr, hf.2.2.1]
    have harith : (resetReused o x y r1 r2 p).pastX - x = (r1 - 1/2) * 2 * o.spawnVelocity := by
      show x + (r1 - 1/2) * 2 * o.spawnVelocity - x = (r1 - 1/2) * 2 * o.spawnVelocity
      ring
    rw [harith]; exact hjit r1 h1 h2
  · rw [hrepr, hf.2.2.2.1]
    have harith : (resetReused o x y r1 r2 p).pastY - y = (r2 - 1/2) * 2 * o.spawnVelocity := by
      show y + (r2 - 1/2) * 2 * o.spawnVelocity - y = (r2 - 1/2) * 2 * o.spawnVelocity
      ring
    rw [harith]; exact hjit r2 h3 h4

/-- A dirty pooled particle carrying stale values in every field. -/
def pC7 : Particle :=
  { x := 77, y := 88, pastX := 99, pastY := 11, vx := 4, vy := -4, fx := 9, fy := 9,
    gridKey := some 5 }

theorem C7_pool_reuse_clean_witness :
    (getPooledParticleReuse defaultOpts (fun k => []) 0 pC7 10 20 (1/4) 1).1.fx = 0 ∧
    |(getPooledParticleReuse defaultOpts (fun k => []) 0 pC7 10 20 (1/4) 1).1.pastX - 10|
      ≤ defaultOpts.spawnVelocity := by
  have h := C7_pool_reuse_clean defaultOpts (fun k => []) 0 pC7 10 20 (1/4) 1
    (by norm_num) (by norm_num) (by norm_num) (by norm_num) (by norm_num [defaultOpts])
  exact ⟨h.1, h.2.2.2.2.1⟩

/-- The performance tracking state: `frameCount`, `lastFPSCheck`, `currentFPS`,
`lodMode` of the engine instance. -/
structure PerfState where
  frameCount : ℕ
  lastFPSCheck : ℚ
  currentFPS : ℕ
  lodMode : Bool
deriving Repr, DecidableEq

/-- Source `updatePerformanceTracking(currentTime)`: bump the frame counter; once
a second has elapsed since the last check, publish the counter as the FPS
sample, reset it, and recompute `lodMode` — strictly-below-threshold when
adaptive LOD is enabled, false when it is disabled.  Mid-window the state other
than the counter is untouched. -/
def updatePerformanceTracking (o : Opts) (s : PerfState) (currentTime : ℚ) : PerfState :=
  let frameCount := s.frameCount + 1
  if currentTime - s.lastFPSCheck ≥ 1000 then
    { frameCount := 0, lastFPSCheck := currentTime, currentFPS := frameCount,
      lodMode :=
        if o.enableAdaptiveLOD then decide ((frameCount : ℚ) < o.performanceThreshold)
        else false }
  else { s with frameCount := frameCount }

/-- An option set with adaptive LOD disabled (all other fields default). -/
def oC8 : Opts := { enableAdaptiveLOD := false }

/-- A reachable tracking state: the flag went DEGRADED while LOD was enabled, and
`updateOptions` then disabled adaptive LOD without touching `lodMode`. -/
def sC8 : PerfState := { frameCount := 0, lastFPSCheck := 0, currentFPS := 60, lodMode := true }

/-- Claim C8 counterexample: with adaptive LOD disabled the state is not forced
NORMAL — a mid-window tracking call (here at t = 500ms into the window) leaves
`lodMode` DEGRADED, because the source only recomputes the flag at a sampling
boundary and `updateOptions` never resets it. -/
theorem C8_disabled_not_normal_cex :
    oC8.enableAdaptiveLOD = false ∧
    (updatePerformanceTracking oC8 sC8 500).lodMode = true := by
  constructor
  · rfl
  · norm_num [updatePerformanceTracking, oC8, sC8]

/-- Claim C8 (amended): at every sampling boundary (at least 1000ms since the
last check) the new LOD state is DEGRADED exactly when the sampled FPS — the
incremented frame counter — is strictly below the threshold, and is forced
NORMAL when adaptive LOD is disabled; between boundaries the state keeps its
previous value, so disabling adaptive LOD mid-window leaves a DEGRADED flag in
place until the next boundary. -/
theorem C8_lod_transitions_amended (o : Opts) (s : PerfState) (t : ℚ)
    (hb : t - s.lastFPSCheck ≥ 1000) :
    (o.enableAdaptiveLOD = true →
      ((updatePerformanceTracking o s t).lodMode = true ↔
        ((s.frameCount : ℚ) + 1 < o.performanceThreshold))) ∧
    (o.enableAdaptiveLOD = false → (updatePerformanceTracking o s t).lodMode = false) ∧
    (updatePerformanceTracking o s t).currentFPS = s.frameCount + 1 ∧
    (∀ (s2 : PerfState) (t2 : ℚ), t2 - s2.lastFPSCheck < 1000 →
      (updatePerformanceTracking o s2 t2).lodMode = s2.lodMode) := by
  refine ⟨fun he => ?_, fun he => ?_, ?_, fun s2 t2 h2 => ?_⟩
  · simp only [updatePerformanceTracking, if_pos hb, he, if_true, decide_eq_true_iff]
    push_cast
    rfl
  · simp [updatePerformanceTracking, if_pos hb, he]
  · simp [updatePerformanceTracking, if_pos hb]
  · simp [updatePerformanceTracking, if_neg (not_le.mpr h2)]

/-- A tracking state 30 frames into a finished one-second window. -/
def sC8b : PerfState := { frameCount := 30, lastFPSCheck := 0, currentFPS := 60, lodMode := false }

theorem C8_lod_transitions_witness :
    (updatePerformanceTracking defaultOpts sC8b 1500).lodMode = true ∧
    (updatePerformanceTracking oC8 sC8b 1500).lodMode = false ∧
    (updatePerformanceTracking defaultOpts sC8b 500).lodMode = false := by
  have h := C8_lod_transitions_amended defaultOpts sC8b 1500 (by norm_num [sC8b])
  have h2 := C8_lod_transitions_amended oC8 sC8b 1500 (by norm_num [sC8b])
  refine ⟨(h.1 rfl).mpr (by norm_num [sC8b, defaultOpts]), h2.2.1 rfl, ?_⟩
  rw [h.2.2.2 sC8b 500 (by norm_num [sC8b])]
  rfl

/-- The fixed-timestep drain loop of `animate`: while the accumulator holds at
least one effective timestep, run one physics step (counted here) and decrement
the accumulator by exactly one timestep.  The source loop does not terminate for
a non-positive timestep; the embedding returns after zero iterations in that
case, and every theorem about it assumes a positive speed, hence a positive
timestep. -/
def drainLoop (step acc : ℚ) : ℕ × ℚ :=
  if h : 0 < step ∧ step ≤ acc then
    let r := drainLoop step (acc - step)
    (r.1 + 1, r.2)
  else (0, acc)
termination_by (⌊acc / step⌋).toNat
decreasing_by
  have hs := h.1
  have ha := h.2
  have key : ⌊(acc - step) / step⌋ = ⌊acc / step⌋ - 1 := by
    have hds : (acc - step) / step = acc / step - 1 := by
      field_simp
    rw [hds]
    exact_mod_cast Int.floor_sub_int (acc / step) 1
  have h1 : (1 : ℤ) ≤ ⌊acc / step⌋ := by
    apply Int.le_floor.mpr
    push_cast
    rw [le_div_iff hs]
    linarith
  simp only [key]
  omega

theorem drainLoop_eq (step : ℚ) (hs : 0 < step) :
    ∀ acc : ℚ, drainLoop step acc = ((⌊acc / step⌋).toNat, acc - (⌊acc / step⌋).toNat * step) := by
  have main : ∀ (m : ℕ) (acc : ℚ), (⌊acc / step⌋).toNat ≤ m →
      drainLoop step acc = ((⌊acc / step⌋).toNat, acc - (⌊acc / step⌋).toNat * step) := by
    intro m
    induction m with
    | zero =>
      intro acc hle
      have h0 : (⌊acc / step⌋).toNat = 0 := Nat.le_zero.mp hle
      have hlt : ¬ step ≤ acc := by
        intro hcon
        have h1 : (1 : ℤ) ≤ ⌊acc / step⌋ := by
          apply Int.le_floor.mpr
          push_cast
          rw [le_div_iff hs]
          linarith
        omega
      rw [drainLoop, dif_neg (by tauto : ¬ (0 < step ∧ step ≤ acc)), h0]
      norm_num
    | succ m ih =>
      intro acc hle
      by_cases hc : step ≤ acc
      · have key : ⌊(acc - step) / step⌋ = ⌊acc / step⌋ - 1 := by
          have hds : (acc - step) / step = acc / step - 1 := by field_simp
          rw [hds]
          exact_mod_cast Int.floor_sub_int (acc / step) 1
        have h1 : (1 : ℤ) ≤ ⌊acc / step⌋ := by
          apply Int.le_floor.mpr
          push_cast
          rw [le_div_iff hs]
          linarith
        have hm : (⌊(acc - step) / step⌋).toNat ≤ m := by
          rw [key]; omega
        rw [drainLoop, dif_pos ⟨hs, hc⟩]
        simp only []
        rw [ih (acc - step) hm]
        have hnat : (⌊(acc - step) / step⌋).toNat + 1 = (⌊acc / step⌋).toNat := by
          rw [key]; omega
        simp only [Prod.mk.injEq]
        refine ⟨hnat, ?_⟩
        rw [← hnat]
        push_cast
        ring
      · have h0 : ⌊acc / step⌋ ≤ 0 := by
          by_contra hpos
          push_neg at hpos
          have hge : (1 : ℚ) ≤ acc / step := by
            exact_mod_cast Int.le_floor.mp hpos
          rw [le_div_iff hs] at hge
          exact hc (by linarith)
        have h0n : (⌊acc / step⌋).toNat = 0 := by omega
        rw [drainLoop, dif_neg (by tauto : ¬ (0 < step ∧ step ≤ acc)), h0n]
        norm_num
  exact fun acc => main (⌊acc / step⌋).toNat acc le_rfl

/-- The observable outcome of one frame callback: physics steps run, render
passes issued, and the scheduler state left behind. -/
structure AnimateOut where
  steps : ℕ
  renders : ℕ
  accumulator : ℚ
  lastTime : ℚ
deriving Repr, DecidableEq

/-- Source `animate(currentTime)` (the requestAnimationFrame re-scheduling
aside): compute the elapsed delta against `lastTime`, add it to the accumulator,
drain the accumulator in effective timesteps of `(1000/60)/speed` ms running one
physics step per timestep, then issue exactly one render pass. -/
def animateTick (o : Opts) (lastTime accumulator currentTime : ℚ) : AnimateOut :=
  let deltaTime := currentTime - lastTime
  let acc := accumulator + deltaTime
  let effectiveTimestep := (1000 / 60) / o.speed
  let d := drainLoop effectiveTimestep acc
  { steps := d.1, renders := 1, accumulator := d.2, lastTime := currentTime }

/-- Source `start()` followed by its immediate `animate(this.lastTime)` call:
`lastTime` is set to the current clock and passed as `currentTime`, so the
elapsed delta of the first callback is zero. -/
def startTick (o : Opts) (accumulator now : ℚ) : AnimateOut :=
  animateTick o now accumulator now

/-- Claim C5: each frame callback adds the elapsed delta to the accumulator and
performs exactly floor(accumulator / ((1000/60)/speed)) physics steps, each
decrementing the accumulator by exactly one effective timestep; exactly one
render pass follows per callback; and on the first callback after start() the
elapsed delta is zero, so with the drained accumulator (below one timestep, as
the loop leaves it) no physics step runs at all. -/
theorem C5_scheduler_fixed_timestep (o : Opts) (lastTime accumulator currentTime now : ℚ)
    (hsp : 0 < o.speed) :
    (animateTick o lastTime accumulator currentTime).steps
      = (⌊(accumulator + (currentTime - lastTime)) / ((1000 / 60) / o.speed)⌋).toNat ∧
    (animateTick o lastTime accumulator currentTime).accumulator
      = (accumulator + (currentTime - lastTime))
        - (animateTick o lastTime accumulator currentTime).steps * ((1000 / 60) / o.speed) ∧
    (animateTick o lastTime accumulator currentTime).renders = 1 ∧
    (animateTick o lastTime accumulator currentTime).accumulator < (1000 / 60) / o.speed ∧
    (startTick o accumulator now).steps = (⌊accumulator / ((1000 / 60) / o.speed)⌋).toNat ∧
    (accumulator < (1000 / 60) / o.speed → (startTick o accumulator now).steps = 0) := by
  have hstep : 0 < (1000 / 60) / o.speed := div_pos (by norm_num) hsp
  have hd := drainLoop_eq ((1000 / 60) / o.speed) hstep
  have hsteps : (animateTick o lastTime accumulator currentTime).steps
      = (⌊(accumulator + (currentTime - lastTime)) / ((1000 / 60) / o.speed)⌋).toNat := by
    simp only [animateTick, hd]
  have hacc : (animateTick o lastTime accumulator currentTime).accumulator
      = (accumulator + (currentTime - lastTime))
        - (⌊(accumulator + (currentTime - lastTime)) / ((1000 / 60) / o.speed)⌋).toNat
          * ((1000 / 60) / o.speed) := by
    simp only [animateTick, hd]
  have hzero : accumulator + (now - now) = accumulator := by ring
  have hstart : (startTick o accumulator now).steps
      = (⌊accumulator / ((1000 / 60) / o.speed)⌋).toNat := by
    simp only [startTick, animateTick, hd, hzero]
  refine ⟨hsteps, by rw [hacc, hsteps], by simp [animateTick], ?_, hstart, fun hsmall => ?_⟩
  · rw [hacc]
    set a : ℚ := accumulator + (currentTime - lastTime) with hadef
    set st : ℚ := (1000 / 60) / o.speed with hstdef
    have hfl : (⌊a / st⌋ : ℚ) ≤ a / st := Int.floor_le _
    have hfr : a / st < ⌊a / st⌋ + 1 := Int.lt_floor_add_one _
    rcases le_or_lt 0 (⌊a / st⌋) with hcase | hcase
    · have : ((⌊a / st⌋).toNat : ℚ) = (⌊a / st⌋ : ℚ) := by exact_mod_cast Int.toNat_of_nonneg hcase
      rw [this]
      have := (div_lt_iff hstep).mp hfr
      linarith [mul_comm (⌊a / st⌋ : ℚ) st]
    · have h0 : (⌊a / st⌋).toNat = 0 := Int.toNat_of_nonpos hcase.le
      have hfn : (⌊a / st⌋ : ℚ) + 1 ≤ 0 := by
        have hz : ⌊a / st⌋ + 1 ≤ 0 := by omega
        exact_mod_cast hz
      have hlt1 : a / st < 1 := lt_of_lt_of_le hfr (by linarith)
      have hlt : a < st := (div_lt_one hstep).mp hlt1
      rw [h0]
      push_cast
      linarith
  · rw [hstart]
    have hcmp : accumulator / ((1000 / 60) / o.speed) < 1 := (div_lt_one hstep).mpr hsmall
    have : ⌊accumulator / ((1000 / 60) / o.speed)⌋ < 1 := Int.floor_lt.mpr (by exact_mod_cast hcmp)
    omega

theorem C5_scheduler_witness :
    (animateTick defaultOpts 0 0 100).steps = 6 ∧
    (animateTick defaultOpts 0 0 100).renders = 1 ∧
    (animateTick defaultOpts 0 0 100).accumulator = 0 ∧
    (startTick defaultOpts 0 5).steps = 0 := by
  have h := C5_scheduler_fixed_timestep defaultOpts 0 0 100 5 (by norm_num [defaultOpts])
  have hfl : (⌊((0:ℚ) + (100 - 0)) / ((1000 / 60) / defaultOpts.speed)⌋) = 6 := by
    norm_num [defaultOpts]
  refine ⟨?_, h.2.2.1, ?_, ?_⟩
  · rw [h.1, hfl]; rfl
  · rw [h.2.1, h.1, hfl]
    have h6 : (6 : ℤ).toNat = 6 := rfl
    rw [h6]
    norm_num [defaultOpts]
  · exact h.2.2.2.2.2 (by norm_num [defaultOpts])

/-- Source `Math.max(0, Math.floor(count))` at the top of `setParticleCount`. -/
def setParticleCountTarget (count : ℚ) : ℕ := (max 0 ⌊count⌋).toNat

/-- The grow loop of `setParticleCount`: while the store is short of the target,
add a particle at the next random in-bounds position (the random draws are
embedded as a stream indexed by the current store length). -/
def growLoop (newPos : ℕ → ℚ × ℚ) (ps : List (ℚ × ℚ)) (target : ℕ) : List (ℚ × ℚ) :=
  if ps.length < target then growLoop newPos (ps ++ [newPos ps.length]) target else ps
termination_by target - ps.length
decreasing_by
  simp only [List.length_append, List.length_cons, List.length_nil]
  omega

/-- The shrink loop of `setParticleCount`: while the store exceeds the target,
pop the most recently added particle. -/
def shrinkLoop (ps : List (ℚ × ℚ)) (target : ℕ) : List (ℚ × ℚ) :=
  if target < ps.length then shrinkLoop ps.dropLast target else ps
termination_by ps.length
decreasing_by
  simp only [List.length_dropLast]
  omega

/-- Source `setParticleCount(count)`, restricted to the live list (the grid and
pool side effects of add/remove are modelled separately): clamp and floor the
target, then grow or shrink until the length matches. -/
def setParticleCount (newPos : ℕ → ℚ × ℚ) (ps : List (ℚ × ℚ)) (count : ℚ) : List (ℚ × ℚ) :=
  shrinkLoop (growLoop newPos ps (setParticleCountTarget count)) (setParticleCountTarget count)

theorem growLoop_length (newPos : ℕ → ℚ × ℚ) (target : ℕ) :
    ∀ ps : List (ℚ × ℚ), (growLoop newPos ps target).length = max ps.length target := by
  have main : ∀ (m : ℕ) (ps : List (ℚ × ℚ)), target - ps.length ≤ m →
      (growLoop newPos ps target).length = max ps.length target := by
    intro m
    induction m with
    | zero =>
      intro ps hle
      have hnl : ¬ ps.length < target := by omega
      rw [growLoop, if_neg hnl, Nat.max_eq_left (by omega)]
    | succ m ih =>
      intro ps hle
      by_cases hc : ps.length < target
      · rw [growLoop, if_pos hc,
          ih (ps ++ [newPos ps.length]) (by
            simp only [List.length_append, List.length_cons, List.length_nil]; omega)]
        simp only [List.length_append, List.length_cons, List.length_nil]
        rw [Nat.max_eq_right (by omega), Nat.max_eq_right (by omega)]
      · rw [growLoop, if_neg hc, Nat.max_eq_left (by omega)]
  exact fun ps => main (target - ps.length) ps le_rfl

theorem shrinkLoop_length (target : ℕ) :
    ∀ ps : List (ℚ × ℚ), (shrinkLoop ps target).length = min ps.length target := by
  have main : ∀ (m : ℕ) (ps : List (ℚ × ℚ)), ps.length ≤ m →
      (shrinkLoop ps target).length = min ps.length target := by
    intro m
    induction m with
    | zero =>
      intro ps hle
      have hnl : ¬ target < ps.length := by omega
      rw [shrinkLoop, if_neg hnl, Nat.min_eq_left (by omega)]
    | succ m ih =>
      intro ps hle
      by_cases hc : target < ps.length
      · rw [shrinkLoop, if_pos hc, ih ps.dropLast (by simp only [List.length_dropLast]; omega)]
        simp only [List.length_dropLast]
        rw [Nat.min_eq_right (by omega), Nat.min_eq_right (by omega)]
      · rw [shrinkLoop, if_neg hc, Nat.min_eq_left (by omega)]
  exact fun ps => main ps.length ps le_rfl

/-- An option set with partitioning on and a zero grid size (the configuration
the claim says is guarded against). -/
def oC9 : Opts := { gridSize := 0 }

/-- Claim C9 counterexample: the cell-key arithmetic has no grid-size guard.
With a zero grid size the division `x / gridSize` is reached and is non-finite
in JS (Infinity, or NaN at x = 0), so no finite integer cell key exists —
refuting the claim that a zero or negative grid size never enters the cell-key
arithmetic. -/
theorem C9_gridsize_unguarded_cex : getGridKey oC9 1 1 = none := by
  simp [getGridKey, oC9]

/-- Claim C9 (amended): the particle-count half of the claim holds — the target
is clamped to at least 0 and floored to an integer before the grow/shrink loops,
and the loops terminate leaving exactly that many particles — but the grid-size
half does not: the key arithmetic is unguarded, and only for a nonzero grid size
is the computed cell key a finite integer. -/
theorem C9_count_clamped_amended (newPos : ℕ → ℚ × ℚ) (ps : List (ℚ × ℚ)) (count : ℚ)
    (o : Opts) (x y : ℚ) (ho : o.enableSpatialPartitioning = true) (hg : o.gridSize ≠ 0) :
    (setParticleCount newPos ps count).length = (max 0 ⌊count⌋).toNat ∧
    getGridKey o x y = some (⌊x / o.gridSize⌋ * 10000 + ⌊y / o.gridSize⌋) := by
  constructor
  · rw [setParticleCount, shrinkLoop_length, growLoop_length,
      Nat.min_eq_right (Nat.le_max_right _ _)]
    rfl
  · simp [getGridKey, ho, hg]

theorem C9_count_clamped_witness :
    (setParticleCount (fun i => (0, 0)) [] (-5)).length = 0 ∧
    getGridKey defaultOpts 30 30 = some 10001 := by
  have h := C9_count_clamped_amended (fun i => (0, 0)) [] (-5) defaultOpts 30 30 rfl
    (by norm_num [defaultOpts])
  constructor
  · rw [h.1]
    have hfl : ⌊(-5 : ℚ)⌋ = -5 := by norm_num
    rw [hfl]
    rfl
  · rw [h.2]
    norm_num [defaultOpts]

/-- Squared Euclidean distance between two positions.  The source computes
`distance = sqrt(dx*dx + dy*dy)` and only ever compares it against nonnegative
bounds, so the embedding carries the square. -/
def distSq (a b : ℚ × ℚ) : ℚ := (a.1 - b.1) ^ 2 + (a.2 - b.2) ^ 2

/-- Source `Math.max(0.5, 1000 / Math.max(1, this.particles.length))` of
`collectRenderData`. -/
def densityFactor (n : ℕ) : ℚ := max (1/2) (1000 / max 1 (n : ℚ))

/-- Source `baseConnectionDistance * densityFactor`. -/
def scaledConnectionDistance (o : Opts) (n : ℕ) : ℚ :=
  o.maxConnectionDistance * densityFactor n

/-- The effective max connection distance of `collectRenderData`: in LOD mode the
scaled distance times the reduction factor times the hysteresis factor
`1 + connectionHysteresis`, otherwise the scaled distance. -/
def effectiveMaxDistance (o : Opts) (lod : Bool) (n : ℕ) : ℚ :=
  if lod then
    scaledConnectionDistance o n * o.lodConnectionReduction * (1 + o.connectionHysteresis)
  else scaledConnectionDistance o n

/-- Whether `calculateConnectionAlpha(sqrt d2)` exceeds the `alpha <= 0.01` floor
check of `collectRenderData`, embedded on the squared distance:
beyond `maxConnectionDistance` the alpha is 0 (fails); at or below
`fadeStartDistance` it is `opacityStep` (passes iff `opacityStep > 0.01`);
in the fade zone the alpha is `opacityStep * (1 - (d - fs)/(mx - fs))` clamped up
to 0.01, which exceeds 0.01 exactly when `opacityStep > 0` and
`d < mx - (mx - fs)/(100 * opacityStep)`; that strict bound on the nonnegative
distance is carried on squares.  Faithful for nonnegative configured distances,
which every theorem using it assumes. -/
def alphaAboveFloor (o : Opts) (d2 : ℚ) : Bool :=
  if d2 > o.maxConnectionDistance ^ 2 then false
  else if d2 ≤ o.fadeStartDistance ^ 2 then decide (1/100 < o.opacityStep)
  else if o.opacityStep ≤ 0 then false
  else
    let T : ℚ := o.maxConnectionDistance
      - (o.maxConnectionDistance - o.fadeStartDistance) / (100 * o.opacityStep)
    decide (0 < T ∧ d2 < T ^ 2)

/-- The per-pair acceptance test of the connection loop in `collectRenderData`:
`distance > maxConnectionDistance → continue` (against the effective scaled
distance), then `alpha <= 0.01 → continue`. -/
def connAccept (o : Opts) (lod : Bool) (n : ℕ) (d2 : ℚ) : Bool :=
  if d2 > (effectiveMaxDistance o lod n) ^ 2 then false
  else alphaAboveFloor o d2

/-- The JS remainder operator for a positive divisor: truncated, the result
carries the sign of the dividend (`-9995 % 10000` is `-9995` in JS). -/
def jsRem (a b : ℤ) : ℤ := if 0 ≤ a then a % b else -((-a) % b)

/-- The bucket of cell `k` in the grid `rebuildGrid` builds from the particle
arrangement: the ids whose current position hashes to `k`, in insertion order
(the rebuild loop walks the live list in index order). -/
def gridBucket (o : Opts) (n : ℕ) (pos : ℕ → ℚ × ℚ) (k : ℤ) : List ℕ :=
  (List.range n).filter (fun j => decide (getGridKey o (pos j).1 (pos j).2 = some k))

/-- The 3x3 block of cell offsets walked by the `dx`/`dy` loops of
`getNearbyParticles`, in source order. -/
def surroundingOffsets : List (ℤ × ℤ) :=
  [(-1, -1), (-1, 0), (-1, 1), (0, -1), (0, 0), (0, 1), (1, -1), (1, 0), (1, 1)]

/-- Source `getNearbyParticles(particle)` over the rebuilt grid: the full set
when partitioning is disabled; the full set again through the falsy `!key` check
both for a `null` key (embedded `none`) and for the numeric key 0 (the particle
in cell (0,0)); otherwise the concatenation of the buckets of the nine
surrounding keys, reconstructed from the packed key with the JS `%` operator. -/
def getNearbyParticles (o : Opts) (n : ℕ) (pos : ℕ → ℚ × ℚ) (i : ℕ) : List ℕ :=
  if ¬ o.enableSpatialPartitioning then List.range n
  else
    match getGridKey o (pos i).1 (pos i).2 with
    | none => List.range n
    | some key =>
        if key = 0 then List.range n
        else
          let gridY := jsRem key 10000
          let gridX := (key - gridY) / 10000
          surroundingOffsets.flatMap
            (fun d => gridBucket o n pos ((gridX + d.1) * 10000 + (gridY + d.2)))

/-- The connection pairs gathered by the loop of `collectRenderData`: for each
particle the nearby candidates, self excluded, passing the distance and alpha
filters.  The max-connections-per-particle cap is dropped, as the claim under
verification explicitly ignores it. -/
def collectConnections (o : Opts) (lod : Bool) (n : ℕ) (pos : ℕ → ℚ × ℚ) : List (ℕ × ℕ) :=
  (List.range n).flatMap (fun i =>
    ((getNearbyParticles o n pos i).filter (fun j =>
        decide (j ≠ i) && connAccept o lod n (distSq (pos i) (pos j)))).map (fun j => (i, j)))

theorem mem_gridBucket {o : Opts} {n : ℕ} {pos : ℕ → ℚ × ℚ} {k : ℤ} {j : ℕ} :
    j ∈ gridBucket o n pos k ↔ j < n ∧ getGridKey o (pos j).1 (pos j).2 = some k := by
  simp [gridBucket, List.mem_filter, List.mem_range]

theorem nearby_subset {o : Opts} {n : ℕ} {pos : ℕ → ℚ × ℚ} {i j : ℕ}
    (hj : j ∈ getNearbyParticles o n pos i) : j < n := by
  unfold getNearbyParticles at hj
  split at hj
  · exact List.mem_range.mp hj
  · split at hj
    · exact List.mem_range.mp hj
    · split at hj
      · exact List.mem_range.mp hj
      · rw [List.mem_flatMap] at hj
        obtain ⟨d, hd, hjb⟩ := hj
        exact (mem_gridBucket.mp hjb).1

theorem mem_collectConnections {o : Opts} {lod : Bool} {n : ℕ} {pos : ℕ → ℚ × ℚ} {i j : ℕ} :
    (i, j) ∈ collectConnections o lod n pos ↔
      i < n ∧ j ∈ getNearbyParticles o n pos i ∧ j ≠ i ∧
        connAccept o lod n (distSq (pos i) (pos j)) = true := by
  unfold collectConnections
  rw [List.mem_flatMap]
  constructor
  · rintro ⟨i2, hi2, hmem⟩
    rw [List.mem_map] at hmem
    obtain ⟨j2, hj2, heq⟩ := hmem
    injection heq with heq1 heq2
    subst heq1
    subst heq2
    rw [List.mem_filter, Bool.and_eq_true, decide_eq_true_iff] at hj2
    exact ⟨List.mem_range.mp hi2, hj2.1, hj2.2.1, hj2.2.2⟩
  · rintro ⟨hi, hnb, hne, hacc⟩
    refine ⟨i, List.mem_range.mpr hi, List.mem_map.mpr ⟨j, ?_, rfl⟩⟩
    rw [List.mem_filter, Bool.and_eq_true, decide_eq_true_iff]
    exact ⟨hnb, hne, hacc⟩

theorem connAccept_le {o : Opts} {lod : Bool} {n : ℕ} {d2 : ℚ}
    (h : connAccept o lod n d2 = true) : d2 ≤ (effectiveMaxDistance o lod n) ^ 2 := by
  unfold connAccept at h
  by_contra hgt
  rw [if_pos (not_le.mp hgt)] at h
  exact Bool.false_ne_true h

theorem floor_div_diff {g a b : ℚ} (hg : 0 < g) (hab : |a - b| ≤ g) :
    -1 ≤ ⌊a / g⌋ - ⌊b / g⌋ ∧ ⌊a / g⌋ - ⌊b / g⌋ ≤ 1 := by
  obtain ⟨h1, h2⟩ := abs_le.mp hab
  have key : ∀ u v : ℚ, u ≤ v + g → ⌊u / g⌋ ≤ ⌊v / g⌋ + 1 := by
    intro u v huv
    have hdiv : u / g ≤ v / g + 1 := by
      have hvg : v / g + 1 = (v + g) / g := by field_simp
      rw [hvg]
      exact (div_le_div_iff_of_pos_right hg).mpr huv
    have := Int.floor_le_floor hdiv
    rwa [Int.floor_add_one] at this
  have ha := key a b (by linarith)
  have hb := key b a (by linarith)
  omega

theorem offsets_mem {a b : ℤ} (h1 : -1 ≤ a) (h2 : a ≤ 1) (h3 : -1 ≤ b) (h4 : b ≤ 1) :
    (a, b) ∈ surroundingOffsets := by
  unfold surroundingOffsets
  interval_cases a <;> interval_cases b <;> decide

theorem getNearbyParticles_key_zero (o : Opts) (n : ℕ) (pos : ℕ → ℚ × ℚ) (i : ℕ)
    (hpart : o.enableSpatialPartitioning = true)
    (hkey : getGridKey o (pos i).1 (pos i).2 = some 0) :
    getNearbyParticles o n pos i = List.range n := by
  unfold getNearbyParticles
  rw [hkey]
  simp [hpart]

theorem getNearbyParticles_some (o : Opts) (n : ℕ) (pos : ℕ → ℚ × ℚ) (i : ℕ) (key : ℤ)
    (hpart : o.enableSpatialPartitioning = true)
    (hkey : getGridKey o (pos i).1 (pos i).2 = some key)
    (hk0 : key ≠ 0) :
    getNearbyParticles o n pos i =
      surroundingOffsets.flatMap (fun d =>
        gridBucket o n pos
          (((key - jsRem key 10000) / 10000 + d.1) * 10000 + (jsRem key 10000 + d.2))) := by
  unfold getNearbyParticles
  rw [hkey]
  simp [hpart, hk0]

/-- Claim C1 (amended): the partitioned and unpartitioned connection sets agree
(ignoring the per-particle cap) provided the effective max connection distance
does not exceed the grid cell size — then every accepted pair lies within the
3x3 cell block — and the arrangement respects the packing assumptions of the key
(nonnegative in-bounds coordinates, y-cell index below 10000), as the source
comment assumes.  Without the distance bound the claim fails: the 3x3 query
cannot see connections longer than one grid cell (see the counterexample). -/
theorem C1_partition_equiv_amended (o : Opts) (lod : Bool) (n : ℕ) (pos : ℕ → ℚ × ℚ) (i j : ℕ)
    (hpart : o.enableSpatialPartitioning = true)
    (hg : 0 < o.gridSize)
    (hE0 : 0 ≤ effectiveMaxDistance o lod n)
    (hEg : effectiveMaxDistance o lod n ≤ o.gridSize)
    (hin : ∀ m, m < n →
      0 ≤ (pos m).1 ∧ 0 ≤ (pos m).2 ∧ ⌊(pos m).2 / o.gridSize⌋ < 10000) :
    ((i, j) ∈ collectConnections o lod n pos ↔
      (i, j) ∈ collectConnections { o with enableSpatialPartitioning := false } lod n pos) := by
  have hoff : ({ o with enableSpatialPartitioning := false } : Opts).enableSpatialPartitioning
      = false := rfl
  have haccept : ∀ d2 : ℚ, connAccept { o with enableSpatialPartitioning := false } lod n d2
      = connAccept o lod n d2 := fun d2 => rfl
  have hfull : getNearbyParticles { o with enableSpatialPartitioning := false } n pos i
      = List.range n := by
    simp [getNearbyParticles, hoff]
  rw [mem_collectConnections, mem_collectConnections, hfull, haccept]
  constructor
  · rintro ⟨hi, hnb, hne, hacc⟩
    exact ⟨hi, List.mem_range.mpr (nearby_subset hnb), hne, hacc⟩
  · rintro ⟨hi, hjr, hne, hacc⟩
    have hj : j < n := List.mem_range.mp hjr
    refine ⟨hi, ?_, hne, hacc⟩
    have hgn : ¬ o.gridSize = 0 := ne_of_gt hg
    have hkey_i : getGridKey o (pos i).1 (pos i).2
        = some (⌊(pos i).1 / o.gridSize⌋ * 10000 + ⌊(pos i).2 / o.gridSize⌋) := by
      simp [getGridKey, hpart, hgn]
    have hkey_j : getGridKey o (pos j).1 (pos j).2
        = some (⌊(pos j).1 / o.gridSize⌋ * 10000 + ⌊(pos j).2 / o.gridSize⌋) := by
      simp [getGridKey, hpart, hgn]
    by_cases hk0 : ⌊(pos i).1 / o.gridSize⌋ * 10000 + ⌊(pos i).2 / o.gridSize⌋ = 0
    · rw [getNearbyParticles_key_zero o n pos i hpart (by rw [hkey_i, hk0])]
      exact hjr
    · rw [getNearbyParticles_some o n pos i _ hpart hkey_i hk0]
      have hd2 := connAccept_le hacc
      set E := effectiveMaxDistance o lod n with hEdef
      have hdx2 : ((pos i).1 - (pos j).1) ^ 2 ≤ E ^ 2 := by
        have hds := hd2
        unfold distSq at hds
        nlinarith [sq_nonneg ((pos i).2 - (pos j).2)]
      have hdy2 : ((pos i).2 - (pos j).2) ^ 2 ≤ E ^ 2 := by
        have hds := hd2
        unfold distSq at hds
        nlinarith [sq_nonneg ((pos i).1 - (pos j).1)]
      have hdxa : |(pos i).1 - (pos j).1| ≤ E := by
        nlinarith [sq_abs ((pos i).1 - (pos j).1), abs_nonneg ((pos i).1 - (pos j).1)]
      have hdya : |(pos i).2 - (pos j).2| ≤ E := by
        nlinarith [sq_abs ((pos i).2 - (pos j).2), abs_nonneg ((pos i).2 - (pos j).2)]
      obtain ⟨hx1, hx2⟩ := floor_div_diff hg (le_trans hdxa hEg)
      obtain ⟨hy1, hy2⟩ := floor_div_diff hg (le_trans hdya hEg)
      have hii := hin i hi
      have hji := hin j hj
      have hgx0 : 0 ≤ ⌊(pos i).1 / o.gridSize⌋ := Int.floor_nonneg.mpr (div_nonneg hii.1 hg.le)
      have hgy0 : 0 ≤ ⌊(pos i).2 / o.gridSize⌋ := Int.floor_nonneg.mpr (div_nonneg hii.2.1 hg.le)
      have hgyb : ⌊(pos i).2 / o.gridSize⌋ < 10000 := hii.2.2
      set gxi := ⌊(pos i).1 / o.gridSize⌋
      set gyi := ⌊(pos i).2 / o.gridSize⌋
      set gxj := ⌊(pos j).1 / o.gridSize⌋
      set gyj := ⌊(pos j).2 / o.gridSize⌋
      have hki0 : 0 ≤ gxi * 10000 + gyi := by omega
      have hrem : jsRem (gxi * 10000 + gyi) 10000 = gyi := by
        unfold jsRem
        rw [if_pos hki0]
        have h1 : gxi * 10000 + gyi = gyi + 10000 * gxi := by ring
        rw [h1, Int.add_mul_emod_self_left]
        exact Int.emod_eq_of_lt hgy0 hgyb
      have hdivq : (gxi * 10000 + gyi - gyi) / 10000 = gxi := by
        have h1 : gxi * 10000 + gyi - gyi = gxi * 10000 := by ring
        rw [h1]
        exact Int.mul_ediv_cancel gxi (by norm_num)
      rw [List.mem_flatMap]
      refine ⟨(gxj - gxi, gyj - gyi),
        offsets_mem (by omega) (by omega) (by omega) (by omega), ?_⟩
      rw [mem_gridBucket]
      refine ⟨hj, ?_⟩
      rw [hkey_j, hrem, hdivq]
      refine congrArg some ?_
      dsimp only
      ring

/-- Two particles 40 pixels apart, cells (1,1) and (3,1) at the default grid
size 20: within the effective connection distance, but two cells apart. -/
def posC1 : ℕ → ℚ × ℚ := fun i => if i = 0 then (30, 30) else (70, 30)

/-- Claim C1 counterexample: with the default options (gridSize 20,
maxConnectionDistance 100) and two particles at (30,30) and (70,30) — distance
40, accepted by the distance and alpha filters — the unpartitioned pass reports
the connection (0,1) but the partitioned pass does not: the neighbor query only
reaches the 3x3 cell block and the particles are two cells apart.  The two
connection sets differ, refuting the claimed equivalence. -/
theorem C1_partition_mismatch_cex :
    ((0, 1) ∈ collectConnections { defaultOpts with enableSpatialPartitioning := false }
        false 2 posC1) ∧
    (0, 1) ∉ collectConnections defaultOpts false 2 posC1 := by
  have hacc : connAccept defaultOpts false 2 (distSq (posC1 0) (posC1 1)) = true := by
    norm_num [connAccept, alphaAboveFloor, effectiveMaxDistance, scaledConnectionDistance,
      densityFactor, distSq, defaultOpts, posC1]
  constructor
  · rw [mem_collectConnections]
    refine ⟨by norm_num, ?_, by norm_num, hacc⟩
    simp [getNearbyParticles]
  · intro hmem
    rw [mem_collectConnections] at hmem
    obtain ⟨h0, hnb, hne, hac⟩ := hmem
    have hkey0 : getGridKey defaultOpts (posC1 0).1 (posC1 0).2 = some 10001 := by
      norm_num [getGridKey, defaultOpts, posC1]
    rw [getNearbyParticles_some defaultOpts 2 posC1 0 10001 rfl hkey0 (by norm_num)] at hnb
    rw [List.mem_flatMap] at hnb
    obtain ⟨d, hd, hb⟩ := hnb
    rw [mem_gridBucket] at hb
    have hkey1 : getGridKey defaultOpts (posC1 1).1 (posC1 1).2 = some 30001 := by
      norm_num [getGridKey, defaultOpts, posC1]
    have hr : jsRem 10001 10000 = 1 := by decide
    have hdv : ((10001 : ℤ) - 1) / 10000 = 1 := by decide
    rw [hr, hdv, hkey1] at hb
    obtain ⟨hlt, heq⟩ := hb
    rw [Option.some.injEq] at heq
    fin_cases hd <;> omega

/-- An option set with a grid cell large enough (100000) to cover the effective
connection distance, so the 3x3 block sees every accepted pair. -/
def oC1w : Opts := { gridSize := 100000 }

/-- Two particles 10 pixels apart in the big-cell configuration. -/
def posC1w : ℕ → ℚ × ℚ := fun i => if i = 0 then (30, 30) else (40, 30)

theorem C1_partition_equiv_witness :
    ((0, 1) ∈ collectConnections oC1w false 2 posC1w ↔
      (0, 1) ∈ collectConnections { oC1w with enableSpatialPartitioning := false }
        false 2 posC1w) := by
  have hden : densityFactor 2 = 500 := by
    unfold densityFactor
    rw [show ((2:ℕ):ℚ) = 2 by norm_num,
      max_eq_right (show (1:ℚ) ≤ 2 by norm_num),
      max_eq_right (show (1:ℚ)/2 ≤ 1000/2 by norm_num)]
    norm_num
  have hE : effectiveMaxDistance oC1w false 2 = 50000 := by
    unfold effectiveMaxDistance scaledConnectionDistance
    rw [if_neg (by simp : ¬ (false = true)), hden]
    norm_num [oC1w]
  refine C1_partition_equiv_amended oC1w false 2 posC1w 0 1 rfl (by norm_num [oC1w])
    (by rw [hE]; norm_num) (by rw [hE]; norm_num [oC1w]) ?_
  intro m hm
  interval_cases m <;> refine ⟨by norm_num [posC1w], by norm_num [posC1w], ?_⟩ <;>
    norm_num [posC1w, oC1w]

end Webs
